import Mathlib

/-!
Shallow embedding of the core logic of the reverb-inventory-processor
repository (five batch scripts in one corpus file plus a config example).

The embedded functions are translated from the Python source:
  * `extract_asin_from_sku`, `is_valid_asin`, `generate_link`
    (data-scraper script, corpus lines 1940-2090);
  * the inline price-variance decision of the Price Variance Updater
    (lines 1651-1746), distilled as `decide_price` and, with its apply
    call and in-memory review list, as `process_variance_row`;
  * the raise-only inline price decision of the Multi Store Price and
    Inventory Updater (lines 1026-1066) and the Reverb Updater
    (lines 2721-2756), distilled as `decide_price_raise_only`;
  * the two `calculate_inventory` variants (identity at lines 166-178,
    721-733, 1374-1378; bucketed at lines 2483-2498);
  * `find_price_column` (lines 2501-2519) and the POSTED PRICE column
    search of the Multi Store Price and Inventory Updater (lines 826-844).

Strings are modelled over their character lists.  Character predicates are
the ASCII restrictions of the Python ones (the regex classes `[A-Za-z]`,
`[A-Za-z0-9]` are ASCII by definition; `str.isalpha`, `str.isdigit`,
`str.isspace`, `str.upper` agree with the ASCII versions on ASCII text, so
theorems that quantify over arbitrary strings carry an `asciiString`
hypothesis).  Prices and stock quantities are modelled as rationals, a
missing cell (`None` / NaN, `pd.isna`) as `Option.none`.  Python's `int()`
truncates toward zero, modelled by `ratTrunc`.
-/

namespace ReverbInv

/-- ASCII letter, the regex class `[A-Za-z]` and the ASCII case of Python's
`str.isalpha`. -/
def pyIsAlpha (c : Char) : Bool := c.isAlpha

/-- ASCII digit, the regex class `[0-9]` (and `\d` on ASCII text), the ASCII
case of Python's `str.isdigit` per character. -/
def pyIsDigit (c : Char) : Bool := c.isDigit

/-- The regex class `[A-Za-z0-9]`. -/
def pyIsAlnum (c : Char) : Bool := pyIsAlpha c || pyIsDigit c

/-- Python `str.isspace` on ASCII code points: 0x09-0x0d, 0x1c-0x1f and
0x20.  `str.strip()` with no argument removes exactly these characters from
the ends of ASCII text. -/
def pyIsSpace (c : Char) : Bool :=
  (9 ≤ c.toNat && c.toNat ≤ 13) || (28 ≤ c.toNat && c.toNat ≤ 32)

/-- Python `str.strip()` on the character list of ASCII text. -/
def stripChars (s : List Char) : List Char :=
  ((s.dropWhile pyIsSpace).reverse.dropWhile pyIsSpace).reverse

/-- Python `str.isdigit()` on ASCII text: nonempty and all digits. -/
def pyIsDigitStr (s : List Char) : Bool := !s.isEmpty && s.all pyIsDigit

/-- All characters of the string are ASCII.  Theorems quantifying over
arbitrary strings assume this; on ASCII strings the embedded character
predicates agree with Python's. -/
def asciiString (s : String) : Bool := s.data.all (fun c => c.toNat < 128)

/-- Matcher for the anchored SKU regexes of `extract_asin_from_sku`:
`^[A-Za-z]+-(CODE)-SUF$` where CODE is exactly `codeLen` characters
satisfying `codeOk` and SUF is one of `sufs`.  Returns the captured CODE.
Because the character classes for the prefix and the code both exclude `-`,
the regex decomposition is deterministic: the prefix is the maximal leading
letter run, which must be followed by `-`, then exactly `codeLen` code
characters, then `-` and the suffix at end of string. -/
def matchSku (codeLen : Nat) (codeOk : Char → Bool) (sufs : List (List Char))
    (s : List Char) : Option (List Char) :=
  if (s.takeWhile pyIsAlpha).isEmpty then none
  else
    match s.dropWhile pyIsAlpha with
    | '-' :: rest2 =>
        if (rest2.take codeLen).length = codeLen && (rest2.take codeLen).all codeOk then
          match rest2.drop codeLen with
          | '-' :: suf =>
              if sufs.contains suf then some (rest2.take codeLen) else none
          | _ => none
        else none
    | _ => none

/-- The suffixes the source accepts: the regexes use `[Nn]ew` and `[Nn]`,
so exactly `New`, `new`, `N`, `n` (only the leading letter varies in case).
`pattern1_10`/`pattern1_12` carry the `ew` tail, `pattern2_10`/`pattern2_12`
do not; each pair is combined with `or` in the source, hence one set. -/
def acceptedSuffixes : List (List Char) :=
  ["New".data, "new".data, "N".data, "n".data]

/-- The eBay fallthrough of `extract_asin_from_sku`: try the 12-digit
patterns on the stripped SKU; on a match, re-check `code.isdigit()` and swap
the 6-character halves. -/
def ebayBranch (s : List Char) : String × Bool :=
  (matchSku 12 pyIsDigit acceptedSuffixes s).elim ("", false)
    (fun code =>
      if pyIsDigitStr code then
        (String.mk (code.drop 6 ++ code.take 6), true)
      else ("", false))

/-- Translation of `extract_asin_from_sku` (corpus lines 1993-2067).  The
SKU is stripped, matched first against the 10-character alphanumeric
patterns (requiring at least one letter in the code, else falling through),
then against the 12-digit patterns; a matched code has its two halves
swapped.  Returns `(asin, success)`. -/
def extract_asin_from_sku (sku : String) : String × Bool :=
  (matchSku 10 pyIsAlnum acceptedSuffixes (stripChars sku.data)).elim
    (ebayBranch (stripChars sku.data))
    (fun code =>
      if code.any pyIsAlpha then
        (String.mk (code.drop 5 ++ code.take 5), true)
      else ebayBranch (stripChars sku.data))

/-- Translation of `is_valid_asin` (corpus lines 1940-1971).  Returns
`(is_valid, reason)`. -/
def is_valid_asin (asin : String) : Bool × String :=
  if (stripChars asin.data).isEmpty then (false, "Empty or missing ASIN")
  else if (stripChars asin.data).length = 10 then
    if (stripChars asin.data).any pyIsAlpha then (true, "Valid Amazon ASIN")
    else (false, "Length 10 but no alphabets (should contain letters)")
  else if (stripChars asin.data).length = 12 then
    if pyIsDigitStr (stripChars asin.data) then (true, "Valid eBay ASIN")
    else (false, "Length 12 but contains non-numeric characters")
  else (false, "Invalid length: " ++ toString (stripChars asin.data).length ++
    " (must be 10 or 12)")

/-- Translation of `generate_link` (corpus lines 2070-2090). -/
def generate_link (asin : String) : String :=
  if asin = "" then ""
  else
    if (stripChars asin.data).length = 10 &&
        (stripChars asin.data).any pyIsAlpha then
      "https://www.amazon.com/dp/" ++ String.mk (stripChars asin.data)
    else if (stripChars asin.data).length = 12 &&
        pyIsDigitStr (stripChars asin.data) then
      "https://www.ebay.com/itm/" ++ String.mk (stripChars asin.data)
    else ""

/-- Refinement-side definition, transcribed from the SPEC's words (section
4.1): shape 1 is the anchored regex on the raw input string,
`^[A-Za-z]+-([A-Za-z0-9]{10})-(New|N)$` with case-insensitive suffix, i.e.
suffix any casing of `New` or `N`; the spec mentions no stripping. -/
def specSuffixes : List (List Char) :=
  ["New".data, "NEw".data, "NeW".data, "NEW".data,
   "new".data, "nEw".data, "neW".data, "nEW".data, "N".data, "n".data]

/-- Spec-side shape 1 (10 alphanumeric characters) on the raw string. -/
def specShape10 (s : String) : Bool :=
  (matchSku 10 pyIsAlnum specSuffixes s.data).isSome

/-- Spec-side shape 2 (12 digits) on the raw string. -/
def specShape12 (s : String) : Bool :=
  (matchSku 12 pyIsDigit specSuffixes s.data).isSome

/-- Python `int()` on a rational: truncation toward zero. -/
def ratTrunc (q : ℚ) : ℤ := if 0 ≤ q then ⌊q⌋ else ⌈q⌉

/-- Identity `calculate_inventory` variant (corpus lines 166-178, also
721-733 and 1374-1378): NaN/missing maps to 0, otherwise `int(stock)`.
No clamping is performed. -/
def calculate_inventory_identity (stock : Option ℚ) : ℤ :=
  match stock with
  | none => 0
  | some q => ratTrunc q

/-- Bucketed `calculate_inventory` variant (corpus lines 2483-2498):
NaN or stock below 7 maps to 0, stock in [7, 10] to 1, otherwise 2. -/
def calculate_inventory_bucketed (stock : Option ℚ) : ℤ :=
  match stock with
  | none => 0
  | some q =>
      if q < 7 then 0
      else if 7 ≤ q ∧ q ≤ 10 then 1
      else 2

/-- Outcome of the price part of a row decision under the threshold policy:
whether to update, and when flagged for review, the direction string. -/
structure PriceDecision where
  shouldUpdate : Bool
  flagDirection : Option String
deriving Repr, DecidableEq

/-- The threshold price policy, distilled from the inline decision of the
Price Variance Updater (corpus lines 1657-1686): a missing, zero or
negative posted price makes no change; otherwise `diff = |posted -
current|`; `diff ≥ threshold` updates and flags with a direction; `0 <
diff < threshold` updates unflagged; `diff = 0` makes no change. -/
def decide_price (current : ℚ) (posted : Option ℚ) (threshold : ℚ) :
    PriceDecision :=
  match posted with
  | none => ⟨false, none⟩
  | some p =>
      if 0 < p then
        if threshold ≤ |p - current| then
          ⟨true, some (if current < p then "INCREASE" else "DECREASE")⟩
        else if 0 < |p - current| then ⟨true, none⟩
        else ⟨false, none⟩
      else ⟨false, none⟩

/-- The raise-only price policy, distilled from the inline decisions of the
Multi Store Price and Inventory Updater (`if posted_price > reverb_price`,
corpus line 1039) and the Reverb Updater (`if current_reverb_price <
excel_price`, corpus line 2734): returns the new price exactly when the
posted price is present and strictly greater than the current price. -/
def decide_price_raise_only (current : ℚ) (posted : Option ℚ) : Option ℚ :=
  match posted with
  | none => none
  | some p => if current < p then some p else none

/-- The value of `PRICE_VARIANCE_THRESHOLD` (corpus line 1249). -/
def PRICE_VARIANCE_THRESHOLD : ℚ := 50

/-- One row of the price-variance review artifact (the dict appended to
`price_variance_data`, corpus lines 1673-1680). -/
structure VarianceReviewRecord where
  storeName : String
  sku : String
  reverbPrice : ℚ
  postedPrice : ℚ
  difference : ℚ
  direction : String
deriving Repr, DecidableEq

/-- Result of processing one row in the Price Variance Updater: the review
list after the row, whether a combined apply call was issued and whether it
succeeded, what was updated and the error increment. -/
structure RowResult where
  reviewList : List VarianceReviewRecord
  applyIssued : Bool
  applySucceeded : Bool
  priceUpdated : Bool
  inventoryUpdated : Bool
  errors : ℕ
deriving Repr, DecidableEq

/-- The combined-apply tail of the row (corpus lines 1688-1746): one API
call is made when an inventory or price change is needed; its success is
the external parameter `applySuccess`.  The review list is not touched
here. -/
def applyPhase (rl : List VarianceReviewRecord) (needInv shouldUpdatePrice
    applySuccess : Bool) : RowResult :=
  if needInv || shouldUpdatePrice then
    { reviewList := rl
      applyIssued := true
      applySucceeded := applySuccess
      priceUpdated := shouldUpdatePrice && applySuccess
      inventoryUpdated := needInv && applySuccess
      errors := if applySuccess then 0 else 1 }
  else
    { reviewList := rl
      applyIssued := false
      applySucceeded := false
      priceUpdated := false
      inventoryUpdated := false
      errors := 0 }

/-- Translation of one row of the Price Variance Updater main loop (corpus
lines 1640-1746), price decision first: when the posted price is present
and positive, `diff = |posted - reverb|` is compared with
`PRICE_VARIANCE_THRESHOLD`; at or above it, a `VarianceReviewRecord` is
appended to the in-memory review list before any apply call; then one
combined apply call is issued when anything needs changing, its success
given by `applySuccess`. -/
def process_variance_row (rl : List VarianceReviewRecord)
    (storeName sku : String) (currentInventory targetInventory : ℤ)
    (reverbPrice : ℚ) (postedPrice : Option ℚ) (applySuccess : Bool) :
    RowResult :=
  match postedPrice with
  | none =>
      applyPhase rl (decide (currentInventory ≠ targetInventory)) false
        applySuccess
  | some p =>
      if 0 < p then
        if PRICE_VARIANCE_THRESHOLD ≤ |p - reverbPrice| then
          applyPhase
            (rl ++ [⟨storeName, sku, reverbPrice, p, |p - reverbPrice|,
              if reverbPrice < p then "INCREASE" else "DECREASE"⟩])
            (decide (currentInventory ≠ targetInventory)) true applySuccess
        else if 0 < |p - reverbPrice| then
          applyPhase rl (decide (currentInventory ≠ targetInventory)) true
            applySuccess
        else
          applyPhase rl (decide (currentInventory ≠ targetInventory)) false
            applySuccess
      else
        applyPhase rl (decide (currentInventory ≠ targetInventory)) false
          applySuccess

/-- The pattern list starts the list here. -/
def leadsWith (pat s : List Char) : Bool :=
  match pat, s with
  | [], _ => true
  | _ :: _, [] => false
  | p :: ps, c :: cs => p == c && leadsWith ps cs

/-- Python's `in` on strings: `pat` occurs as a contiguous substring of
`s`. -/
def containsSub (pat s : List Char) : Bool :=
  match s with
  | [] => pat.isEmpty
  | _ :: cs => leadsWith pat s || containsSub pat cs

/-- Keyword list of `find_price_column` (corpus lines 2512-2513): three
fixed casings of each of price, cost, amount, value. -/
def priceKeywords : List String :=
  ["price", "Price", "PRICE", "cost", "Cost", "COST",
   "amount", "Amount", "AMOUNT", "value", "Value", "VALUE"]

/-- Translation of `find_price_column` (corpus lines 2501-2519): the first
column whose name contains one of the keywords as a case-SENSITIVE
substring; no trimming or case folding is applied. -/
def find_price_column (cols : List String) : Option String :=
  cols.find? (fun col => priceKeywords.any (fun k => containsSub k.data col.data))

/-- Keyword list of the POSTED PRICE column search (corpus lines 827-828). -/
def postedPriceKeywords : List String :=
  ["POSTED PRICE", "Posted Price", "posted price", "POSTED_PRICE",
   "Posted_Price", "posted_price", "PRICE", "Price", "price"]

/-- Python `str.upper()` on ASCII text. -/
def pyUpper (s : List Char) : List Char := s.map Char.toUpper

/-- Translation of the POSTED PRICE column search of the Multi Store Price
and Inventory Updater (corpus lines 826-844): the first column whose
trimmed, upper-cased name contains the upper-cased form of one of the
keywords as a substring. -/
def find_posted_price_column (cols : List String) : Option String :=
  cols.find? (fun col => postedPriceKeywords.any
    (fun k => containsSub (pyUpper k.data) (pyUpper (stripChars col.data))))

/-- Refinement-side definition, transcribed from the SPEC's words (section
6, claim C9): a column name matches when its trimmed, case-folded form
contains one of price, cost, amount, value, posted price, case-insensitively. -/
def spec_price_keyword_match (col : String) : Bool :=
  ["price", "cost", "amount", "value", "posted price"].any
    (fun k => containsSub (pyUpper k.data) (pyUpper (stripChars col.data)))

/-! Helper lemmas about the character classes and the SKU matcher. -/

lemma alpha_toNat_lb (c : Char) (h : pyIsAlpha c = true) : 65 ≤ c.toNat := by
  simp [pyIsAlpha, Char.isAlpha, Char.isUpper, Char.isLower] at h
  rcases h with ⟨h1, h2⟩ | ⟨h1, h2⟩
  · exact (show (65 : ℕ) ≤ c.toNat from h1)
  · have h1' : (97 : ℕ) ≤ c.toNat := h1
    omega

lemma digit_toNat_lb (c : Char) (h : pyIsDigit c = true) : 48 ≤ c.toNat := by
  simp [pyIsDigit, Char.isDigit] at h
  exact (show (48 : ℕ) ≤ c.toNat from h.1)

lemma space_false_of_alpha (c : Char) (h : pyIsAlpha c = true) :
    pyIsSpace c = false := by
  have hb := alpha_toNat_lb c h
  simp only [pyIsSpace, Bool.or_eq_false_iff, Bool.and_eq_false_iff,
    decide_eq_false_iff_not, not_le]
  omega

lemma space_false_of_digit (c : Char) (h : pyIsDigit c = true) :
    pyIsSpace c = false := by
  have hb := digit_toNat_lb c h
  simp only [pyIsSpace, Bool.or_eq_false_iff, Bool.and_eq_false_iff,
    decide_eq_false_iff_not, not_le]
  omega

lemma space_false_of_alnum (c : Char) (h : pyIsAlnum c = true) :
    pyIsSpace c = false := by
  rcases Bool.or_eq_true_iff.mp h with h' | h'
  · exact space_false_of_alpha c h'
  · exact space_false_of_digit c h'

lemma alnum_of_digit (c : Char) (h : pyIsDigit c = true) : pyIsAlnum c = true := by
  simp [pyIsAlnum, h]

lemma dropWhile_eq_self_of_all_false (p : Char → Bool) (l : List Char)
    (h : ∀ c ∈ l, p c = false) : l.dropWhile p = l := by
  cases l with
  | nil => rfl
  | cons a t => simp [List.dropWhile_cons, h a (List.mem_cons_self a t)]

lemma stripChars_eq_self (l : List Char) (h : ∀ c ∈ l, pyIsSpace c = false) :
    stripChars l = l := by
  unfold stripChars
  rw [dropWhile_eq_self_of_all_false _ _ h,
    dropWhile_eq_self_of_all_false _ _ (fun c hc => h c (List.mem_reverse.mp hc)),
    List.reverse_reverse]

lemma takeWhile_append_cons (p : Char → Bool) (l1 : List Char) (x : Char)
    (l2 : List Char) (h1 : ∀ c ∈ l1, p c = true) (hx : p x = false) :
    (l1 ++ x :: l2).takeWhile p = l1 ∧ (l1 ++ x :: l2).dropWhile p = x :: l2 := by
  induction l1 with
  | nil => simp [List.takeWhile_cons, List.dropWhile_cons, hx]
  | cons a t ih =>
      have ha := h1 a (List.mem_cons_self a t)
      have ih' := ih (fun c hc => h1 c (List.mem_cons_of_mem a hc))
      simp [List.takeWhile_cons, List.dropWhile_cons, ha, ih'.1, ih'.2]

/-- On a well-formed decomposition, the matcher reduces to the code-and-suffix
checks: the maximal letter run is the prefix and the following character is
the first `-`. -/
lemma matchSku_split (codeLen : Nat) (codeOk : Char → Bool)
    (sufs : List (List Char)) (preL code suf : List Char)
    (hpre : preL ≠ []) (hpreA : ∀ c ∈ preL, pyIsAlpha c = true) :
    matchSku codeLen codeOk sufs (preL ++ '-' :: (code ++ '-' :: suf)) =
      (if ((code ++ '-' :: suf).take codeLen).length = codeLen &&
          ((code ++ '-' :: suf).take codeLen).all codeOk then
        match (code ++ '-' :: suf).drop codeLen with
        | '-' :: s2 => if sufs.contains s2 then
            some ((code ++ '-' :: suf).take codeLen) else none
        | _ => none
      else none) := by
  have hdash : pyIsAlpha '-' = false := by decide
  have ht := takeWhile_append_cons pyIsAlpha preL '-' (code ++ '-' :: suf) hpreA hdash
  unfold matchSku
  rw [ht.1, ht.2]
  cases preL with
  | nil => exact absurd rfl hpre
  | cons a t => rfl

/-- The matcher accepts a code of exactly the expected length that passes the
character check, returning it when the suffix is accepted. -/
lemma matchSku_exact (codeOk : Char → Bool) (sufs : List (List Char))
    (preL code suf : List Char) (hpre : preL ≠ [])
    (hpreA : ∀ c ∈ preL, pyIsAlpha c = true) (hcode : code.all codeOk = true) :
    matchSku code.length codeOk sufs (preL ++ '-' :: (code ++ '-' :: suf)) =
      if sufs.contains suf then some code else none := by
  rw [matchSku_split code.length codeOk sufs preL code suf hpre hpreA]
  rw [List.take_left, List.drop_left]
  simp [hcode]

/-- A 12-digit pattern never matches a string whose code slot holds 10
characters: the 12-character window reaches past the second `-`. -/
lemma matchSku12_none_on10 (sufs : List (List Char)) (preL code suf : List Char)
    (hpre : preL ≠ []) (hpreA : ∀ c ∈ preL, pyIsAlpha c = true)
    (hlen : code.length = 10) :
    matchSku 12 pyIsDigit sufs (preL ++ '-' :: (code ++ '-' :: suf)) = none := by
  rw [matchSku_split 12 pyIsDigit sufs preL code suf hpre hpreA]
  have htake : (code ++ '-' :: suf).take 12 = code ++ '-' :: suf.take 1 := by
    rw [List.take_append_eq_append_take,
      List.take_of_length_le (show code.length ≤ 12 by omega), hlen]
    simp
  rw [htake]
  have hfalse : (code ++ '-' :: suf.take 1).all pyIsDigit = false := by
    rw [List.all_append]
    have hdash : pyIsDigit '-' = false := by decide
    simp [List.all_cons, hdash]
  rw [hfalse, Bool.and_false]
  rfl

/-- A 10-character pattern never matches a string whose code slot holds 12
digits: after 10 characters the next one is a digit, not `-`. -/
lemma matchSku10_none_on12 (sufs : List (List Char)) (preL code suf : List Char)
    (hpre : preL ≠ []) (hpreA : ∀ c ∈ preL, pyIsAlpha c = true)
    (hlen : code.length = 12) (hdig : code.all pyIsDigit = true) :
    matchSku 10 pyIsAlnum sufs (preL ++ '-' :: (code ++ '-' :: suf)) = none := by
  rw [matchSku_split 10 pyIsAlnum sufs preL code suf hpre hpreA]
  have hdrop : (code ++ '-' :: suf).drop 10 = code.drop 10 ++ '-' :: suf := by
    rw [List.drop_append_eq_append_drop,
      (show 10 - code.length = 0 by omega), List.drop_zero]
  have hne : code.drop 10 ≠ [] := by
    have h2 : (code.drop 10).length = 2 := by rw [List.length_drop, hlen]
    intro h
    rw [h] at h2
    simp at h2
  obtain ⟨d, t, hdt⟩ := List.exists_cons_of_ne_nil hne
  have hd : pyIsDigit d = true := by
    have hmem : d ∈ code := List.drop_subset 10 code (hdt ▸ List.mem_cons_self d t)
    exact List.all_eq_true.mp hdig d hmem
  have hdne : d ≠ '-' := fun h => absurd (h ▸ hd) (by decide)
  rw [hdrop, hdt, List.cons_append]
  split
  · split
    · next s2 heq =>
        injection heq with h1 h2
        exact absurd h1 hdne
    · rfl
  · rfl

/-- Whatever the matcher returns has the expected length and passes the
character check. -/
lemma matchSku_sound (codeLen : Nat) (codeOk : Char → Bool)
    (sufs : List (List Char)) (s code : List Char)
    (h : matchSku codeLen codeOk sufs s = some code) :
    code.length = codeLen ∧ code.all codeOk = true := by
  unfold matchSku at h
  split at h
  · exact absurd h (by simp)
  · split at h
    · next rest2 =>
        split at h
        · next hcond =>
            obtain ⟨hlen, hall⟩ := Bool.and_eq_true_iff.mp hcond
            split at h
            · split at h
              · injection h with h'
                subst h'
                exact ⟨by simpa using hlen, hall⟩
              · exact absurd h (by simp)
            · exact absurd h (by simp)
        · exact absurd h (by simp)
    · exact absurd h (by simp)

lemma stripChars_wellformed (preL code suf : List Char)
    (hpreA : ∀ c ∈ preL, pyIsAlpha c = true)
    (hcode : ∀ c ∈ code, pyIsAlnum c = true)
    (hsufA : ∀ c ∈ suf, pyIsAlpha c = true) :
    stripChars (preL ++ '-' :: (code ++ '-' :: suf))
      = preL ++ '-' :: (code ++ '-' :: suf) := by
  apply stripChars_eq_self
  intro c hc
  rcases List.mem_append.mp hc with h | h
  · exact space_false_of_alpha c (hpreA c h)
  · rcases List.mem_cons.mp h with rfl | h
    · decide
    · rcases List.mem_append.mp h with h | h
      · exact space_false_of_alnum c (hcode c h)
      · rcases List.mem_cons.mp h with rfl | h
        · decide
        · exact space_false_of_alpha c (hsufA c h)

lemma suffix_chars_alpha (suf : List Char) (h : suf ∈ specSuffixes) :
    ∀ c ∈ suf, pyIsAlpha c = true := by
  simp only [specSuffixes, List.mem_cons, List.not_mem_nil, or_false] at h
  rcases h with rfl | rfl | rfl | rfl | rfl | rfl | rfl | rfl | rfl | rfl <;>
    decide

lemma accepted_sub_spec (suf : List Char) (h : suf ∈ acceptedSuffixes) :
    suf ∈ specSuffixes := by
  simp only [acceptedSuffixes, List.mem_cons, List.not_mem_nil, or_false] at h
  rcases h with rfl | rfl | rfl | rfl <;> decide

lemma pyIsDigitStr_of (l : List Char) (h1 : l ≠ [])
    (h2 : l.all pyIsDigit = true) : pyIsDigitStr l = true := by
  cases l with
  | nil => exact absurd rfl h1
  | cons a t => simp only [pyIsDigitStr, List.isEmpty_cons, Bool.not_false,
      Bool.true_and, h2]

/-- Successful amazon-side extraction on a well-formed SKU. -/
lemma extract_amazon_ok (preL code suf : List Char) (hpre : preL ≠ [])
    (hpreA : ∀ c ∈ preL, pyIsAlpha c = true) (hsuf : suf ∈ acceptedSuffixes)
    (hlen : code.length = 10) (hall : code.all pyIsAlnum = true)
    (hany : code.any pyIsAlpha = true) :
    extract_asin_from_sku (String.mk (preL ++ '-' :: (code ++ '-' :: suf)))
      = (String.mk (code.drop 5 ++ code.take 5), true) := by
  have hstrip := stripChars_wellformed preL code suf hpreA
    (List.all_eq_true.mp hall) (suffix_chars_alpha suf (accepted_sub_spec suf hsuf))
  have hcontains : acceptedSuffixes.contains suf = true := by
    simp only [acceptedSuffixes, List.mem_cons, List.not_mem_nil, or_false]
      at hsuf
    rcases hsuf with rfl | rfl | rfl | rfl <;> decide
  have h10 := matchSku_exact pyIsAlnum acceptedSuffixes preL code suf hpre
    hpreA hall
  rw [hlen] at h10
  rw [if_pos hcontains] at h10
  simp only [extract_asin_from_sku]
  rw [hstrip, h10]
  simp only [Option.elim_some]
  rw [if_pos hany]

/-- Successful eBay-side extraction on a well-formed SKU. -/
lemma extract_ebay_ok (preL code suf : List Char) (hpre : preL ≠ [])
    (hpreA : ∀ c ∈ preL, pyIsAlpha c = true) (hsuf : suf ∈ acceptedSuffixes)
    (hlen : code.length = 12) (hall : code.all pyIsDigit = true) :
    extract_asin_from_sku (String.mk (preL ++ '-' :: (code ++ '-' :: suf)))
      = (String.mk (code.drop 6 ++ code.take 6), true) := by
  have hstrip := stripChars_wellformed preL code suf hpreA
    (fun c hc => alnum_of_digit c (List.all_eq_true.mp hall c hc))
    (suffix_chars_alpha suf (accepted_sub_spec suf hsuf))
  have hcontains : acceptedSuffixes.contains suf = true := by
    simp only [acceptedSuffixes, List.mem_cons, List.not_mem_nil, or_false]
      at hsuf
    rcases hsuf with rfl | rfl | rfl | rfl <;> decide
  have h10 := matchSku10_none_on12 acceptedSuffixes preL code suf hpre hpreA
    hlen hall
  have h12 := matchSku_exact pyIsDigit acceptedSuffixes preL code suf hpre
    hpreA hall
  rw [hlen] at h12
  rw [if_pos hcontains] at h12
  have hne : code ≠ [] := by
    intro h
    rw [h] at hlen
    simp at hlen
  simp only [extract_asin_from_sku]
  rw [hstrip, h10]
  simp only [Option.elim_none, ebayBranch]
  rw [h12]
  simp only [Option.elim_some]
  rw [if_pos (pyIsDigitStr_of code hne hall)]

/-- A well-formed 10-character SKU with a rejected suffix (of length 3, as
any non-accepted casing of `New` is) extracts nothing. -/
lemma extract_bad_suffix (preL code suf : List Char) (hpre : preL ≠ [])
    (hpreA : ∀ c ∈ preL, pyIsAlpha c = true)
    (hsufA : ∀ c ∈ suf, pyIsAlpha c = true)
    (hlen : code.length = 10) (hall : code.all pyIsAlnum = true)
    (hnot : acceptedSuffixes.contains suf = false) :
    extract_asin_from_sku (String.mk (preL ++ '-' :: (code ++ '-' :: suf)))
      = ("", false) := by
  have hstrip := stripChars_wellformed preL code suf hpreA
    (List.all_eq_true.mp hall) hsufA
  have h10 := matchSku_exact pyIsAlnum acceptedSuffixes preL code suf hpre
    hpreA hall
  rw [hlen] at h10
  rw [if_neg (by rw [hnot]; exact Bool.false_ne_true)] at h10
  have h12 := matchSku12_none_on10 acceptedSuffixes preL code suf hpre hpreA
    hlen
  simp only [extract_asin_from_sku]
  rw [hstrip, h10]
  simp only [Option.elim_none, ebayBranch]
  rw [h12]
  simp only [Option.elim_none]

/-- A well-formed 12-digit SKU with a rejected suffix extracts nothing:
the 10-character window stops at a digit instead of the second `-`, and the
12-digit pattern fails on the suffix. -/
lemma extract_bad_suffix12 (preL code suf : List Char) (hpre : preL ≠ [])
    (hpreA : ∀ c ∈ preL, pyIsAlpha c = true)
    (hsufA : ∀ c ∈ suf, pyIsAlpha c = true)
    (hlen : code.length = 12) (hall : code.all pyIsDigit = true)
    (hnot : acceptedSuffixes.contains suf = false) :
    extract_asin_from_sku (String.mk (preL ++ '-' :: (code ++ '-' :: suf)))
      = ("", false) := by
  have hstrip := stripChars_wellformed preL code suf hpreA
    (fun c hc => alnum_of_digit c (List.all_eq_true.mp hall c hc)) hsufA
  have h10 := matchSku10_none_on12 acceptedSuffixes preL code suf hpre hpreA
    hlen hall
  have h12 := matchSku_exact pyIsDigit acceptedSuffixes preL code suf hpre
    hpreA hall
  rw [hlen] at h12
  rw [if_neg (by rw [hnot]; exact Bool.false_ne_true)] at h12
  simp only [extract_asin_from_sku]
  rw [hstrip, h10]
  simp only [Option.elim_none, ebayBranch]
  rw [h12]
  simp only [Option.elim_none]

/-- A length-10 identifier with a letter, made of alphanumeric characters,
is classified valid. -/
lemma valid_of_len10_alpha (l : List Char) (hlen : l.length = 10)
    (halnum : ∀ c ∈ l, pyIsAlnum c = true) (hany : l.any pyIsAlpha = true) :
    (is_valid_asin (String.mk l)).1 = true := by
  have hstrip : stripChars l = l :=
    stripChars_eq_self l (fun c hc => space_false_of_alnum c (halnum c hc))
  have hemp : l.isEmpty = false := by
    cases l with
    | nil => simp at hlen
    | cons a t => rfl
  simp only [is_valid_asin, show (String.mk l).data = l from rfl, hstrip]
  rw [if_neg (by rw [hemp]; exact Bool.false_ne_true), if_pos hlen,
    if_pos hany]

/-- A length-12 all-digit identifier is classified valid. -/
lemma valid_of_len12_digits (l : List Char) (hlen : l.length = 12)
    (hdig : ∀ c ∈ l, pyIsDigit c = true) :
    (is_valid_asin (String.mk l)).1 = true := by
  have hstrip : stripChars l = l :=
    stripChars_eq_self l
      (fun c hc => space_false_of_digit c (hdig c hc))
  have hemp : l.isEmpty = false := by
    cases l with
    | nil => simp at hlen
    | cons a t => rfl
  have hne : l ≠ [] := by
    intro h
    rw [h] at hlen
    simp at hlen
  have hall : l.all pyIsDigit = true := List.all_eq_true.mpr hdig
  simp only [is_valid_asin, show (String.mk l).data = l from rfl, hstrip]
  rw [if_neg (by rw [hemp]; exact Bool.false_ne_true),
    if_neg (by rw [hlen]; norm_num), if_pos hlen,
    if_pos (pyIsDigitStr_of l hne hall)]

/-- A successful eBay branch yields a 12-digit identifier that validates. -/
lemma ebayBranch_ok (l : List Char) (a : String)
    (h : ebayBranch l = (a, true)) :
    a.length = 12 ∧ a.data.all pyIsDigit = true ∧
      (is_valid_asin a).1 = true := by
  unfold ebayBranch at h
  cases hm : matchSku 12 pyIsDigit acceptedSuffixes l with
  | none =>
      rw [hm] at h
      simp only [Option.elim_none] at h
      exact absurd h (by simp)
  | some code =>
      rw [hm] at h
      simp only [Option.elim_some] at h
      obtain ⟨hlen, hall⟩ := matchSku_sound 12 pyIsDigit acceptedSuffixes l
        code hm
      cases hd : pyIsDigitStr code with
      | false =>
          rw [hd] at h
          exact absurd h (by simp)
      | true =>
          rw [hd] at h
          simp only [if_true] at h
          rw [Prod.ext_iff] at h
          obtain ⟨h1, -⟩ := h
          subst h1
          have hdig : ∀ c ∈ code.drop 6 ++ code.take 6, pyIsDigit c = true := by
            intro c hc
            rcases List.mem_append.mp hc with h' | h'
            · exact List.all_eq_true.mp hall c (List.drop_subset 6 code h')
            · exact List.all_eq_true.mp hall c (List.take_subset 6 code h')
          have hlen' : (code.drop 6 ++ code.take 6).length = 12 := by
            rw [List.length_append, List.length_drop, List.length_take, hlen]
            omega
          exact ⟨hlen', List.all_eq_true.mpr hdig,
            valid_of_len12_digits _ hlen' hdig⟩

lemma applyPhase_reviewList (rl : List VarianceReviewRecord)
    (a b c : Bool) : (applyPhase rl a b c).reviewList = rl := by
  unfold applyPhase
  split <;> rfl

lemma applyPhase_applyIssued (rl : List VarianceReviewRecord)
    (a c : Bool) : (applyPhase rl a true c).applyIssued = true := by
  unfold applyPhase
  rw [Bool.or_true]
  rfl

/-- C2: Under the threshold price policy with threshold 50, an absent, zero
or negative posted price makes no change; a zero difference makes no
change; a difference strictly between 0 and 50 updates without a flag; a
difference of at least 50 updates and flags with direction INCREASE when
the posted price exceeds the current one and DECREASE otherwise; with the
spec's concrete examples at current price 100. -/
theorem decide_price_threshold_policy (current p : ℚ) :
    decide_price current none 50 = ⟨false, none⟩ ∧
    (p ≤ 0 → decide_price current (some p) 50 = ⟨false, none⟩) ∧
    (0 < p → |p - current| = 0 →
      decide_price current (some p) 50 = ⟨false, none⟩) ∧
    (0 < p → 0 < |p - current| → |p - current| < 50 →
      decide_price current (some p) 50 = ⟨true, none⟩) ∧
    (0 < p → 50 ≤ |p - current| → current < p →
      decide_price current (some p) 50 = ⟨true, some "INCREASE"⟩) ∧
    (0 < p → 50 ≤ |p - current| → p ≤ current →
      decide_price current (some p) 50 = ⟨true, some "DECREASE"⟩) ∧
    decide_price 100 (some 160) 50 = ⟨true, some "INCREASE"⟩ ∧
    decide_price 100 (some 130) 50 = ⟨true, none⟩ ∧
    decide_price 100 (some 100) 50 = ⟨false, none⟩ := by
  refine ⟨rfl, ?_, ?_, ?_, ?_, ?_, ?_, ?_, ?_⟩
  · intro h
    simp only [decide_price]
    rw [if_neg (not_lt.mpr h)]
  · intro hp hd
    simp only [decide_price]
    rw [if_pos hp, if_neg (by rw [hd]; norm_num), if_neg (by rw [hd]; norm_num)]
  · intro hp hd hlt
    simp only [decide_price]
    rw [if_pos hp, if_neg (not_le.mpr hlt), if_pos hd]
  · intro hp hd hc
    simp only [decide_price]
    rw [if_pos hp, if_pos hd, if_pos hc]
  · intro hp hd hc
    simp only [decide_price]
    rw [if_pos hp, if_pos hd, if_neg (not_lt.mpr hc)]
  · have habs : |(160 : ℚ) - 100| = 60 := by
      rw [abs_of_nonneg] <;> norm_num
    simp only [decide_price]
    rw [if_pos (by norm_num), if_pos (by rw [habs]; norm_num),
      if_pos (by norm_num)]
  · have habs : |(130 : ℚ) - 100| = 30 := by
      rw [abs_of_nonneg] <;> norm_num
    simp only [decide_price]
    rw [if_pos (by norm_num), if_neg (by rw [habs]; norm_num),
      if_pos (by rw [habs]; norm_num)]
  · have habs : |(100 : ℚ) - 100| = 0 := by norm_num
    simp only [decide_price]
    rw [if_pos (by norm_num), if_neg (by rw [habs]; norm_num),
      if_neg (by rw [habs]; norm_num)]

/-- Witness for C2: the INCREASE branch applied at current 100, posted 160. -/
theorem decide_price_threshold_policy_witness :
    (0 : ℚ) < 160 ∧ (50 : ℚ) ≤ |(160 : ℚ) - 100| ∧ (100 : ℚ) < 160 ∧
    decide_price 100 (some 160) 50 = ⟨true, some "INCREASE"⟩ := by
  have habs : |(160 : ℚ) - 100| = 60 := by
    rw [abs_of_nonneg] <;> norm_num
  exact ⟨by norm_num, by rw [habs]; norm_num, by norm_num,
    (decide_price_threshold_policy 100 160).2.2.2.2.1 (by norm_num)
      (by rw [habs]; norm_num) (by norm_num)⟩

/-- C3: Under the raise-only price policy the price is updated exactly when
the posted price is present and strictly greater than the current price;
any posted price less than or equal to the current one, and an absent one,
makes no change; with the spec's concrete examples. -/
theorem decide_price_raise_only_policy (current p : ℚ) :
    decide_price_raise_only current none = none ∧
    (decide_price_raise_only current (some p) = some p ↔ current < p) ∧
    (p ≤ current → decide_price_raise_only current (some p) = none) ∧
    decide_price_raise_only 100 (some 90) = none ∧
    decide_price_raise_only 100 (some 110) = some 110 := by
  refine ⟨rfl, ⟨?_, ?_⟩, ?_, ?_, ?_⟩
  · intro h
    simp only [decide_price_raise_only] at h
    split at h
    · next hc => exact hc
    · exact absurd h (by simp)
  · intro h
    simp [decide_price_raise_only, h]
  · intro h
    simp [decide_price_raise_only, not_lt.mpr h]
  · norm_num [decide_price_raise_only]
  · norm_num [decide_price_raise_only]

/-- Witness for C3: the update branch applied at current 100, posted 110. -/
theorem decide_price_raise_only_policy_witness :
    (100 : ℚ) < 110 ∧ decide_price_raise_only 100 (some 110) = some 110 :=
  ⟨by norm_num,
    ((decide_price_raise_only_policy 100 110).2.1).mpr (by norm_num)⟩

/-- Counterexample for C4: the identity inventory strategy does not clamp
to 0: at stock -1 the code returns -1, while the claim's
max(floor(stock), 0) is 0. -/
theorem calculate_inventory_identity_unclamped_cex :
    calculate_inventory_identity (some (-1)) = -1 ∧
    max ⌊(-1 : ℚ)⌋ 0 = 0 ∧
    calculate_inventory_identity (some (-1)) ≠ max ⌊(-1 : ℚ)⌋ 0 := by
  have hceil : ⌈(-1 : ℚ)⌉ = -1 := by
    rw [show ((-1 : ℚ)) = ((-1 : ℤ) : ℚ) by norm_num, Int.ceil_intCast]
  have hfloor : ⌊(-1 : ℚ)⌋ = -1 := by
    rw [show ((-1 : ℚ)) = ((-1 : ℤ) : ℚ) by norm_num, Int.floor_intCast]
  have h1 : calculate_inventory_identity (some (-1)) = -1 := by
    simp only [calculate_inventory_identity, ratTrunc]
    rw [if_neg (by norm_num), hceil]
  refine ⟨h1, by rw [hfloor]; decide, ?_⟩
  rw [h1, hfloor]
  decide

/-- C4 (amended): the identity strategy returns Python's `int(stock)`
(truncation toward zero, so `max(floor(stock), 0)` holds exactly for
nonnegative stock, while negative stock returns its ceiling, unclamped)
with missing/NaN mapped to 0; the bucketed strategy maps missing/NaN and
stock below 7 to 0, stock in [7, 10] to 1 and stock above 10 to 2. -/
theorem calculate_inventory_policies (q : ℚ) :
    calculate_inventory_identity none = 0 ∧
    (0 ≤ q → calculate_inventory_identity (some q) = max ⌊q⌋ 0) ∧
    (q < 0 → calculate_inventory_identity (some q) = ⌈q⌉) ∧
    calculate_inventory_bucketed none = 0 ∧
    (q < 7 → calculate_inventory_bucketed (some q) = 0) ∧
    (7 ≤ q → q ≤ 10 → calculate_inventory_bucketed (some q) = 1) ∧
    (10 < q → calculate_inventory_bucketed (some q) = 2) ∧
    calculate_inventory_bucketed (some 6) = 0 ∧
    calculate_inventory_bucketed (some 7) = 1 ∧
    calculate_inventory_bucketed (some 10) = 1 ∧
    calculate_inventory_bucketed (some 11) = 2 := by
  refine ⟨rfl, ?_, ?_, rfl, ?_, ?_, ?_, ?_, ?_, ?_, ?_⟩
  · intro hq
    simp only [calculate_inventory_identity, ratTrunc]
    rw [if_pos hq, max_eq_left (Int.floor_nonneg.mpr hq)]
  · intro hq
    simp only [calculate_inventory_identity, ratTrunc]
    rw [if_neg (not_le.mpr hq)]
  · intro hq
    simp only [calculate_inventory_bucketed]
    rw [if_pos hq]
  · intro h7 h10
    simp only [calculate_inventory_bucketed]
    rw [if_neg (not_lt.mpr h7), if_pos ⟨h7, h10⟩]
  · intro hq
    simp only [calculate_inventory_bucketed]
    rw [if_neg (by push_neg; linarith), if_neg (by push_neg; intro; linarith)]
  · norm_num [calculate_inventory_bucketed]
  · norm_num [calculate_inventory_bucketed]
  · norm_num [calculate_inventory_bucketed]
  · norm_num [calculate_inventory_bucketed]

/-- Witness for C4: the bucketed branch for stock in [7, 10] at stock 8. -/
theorem calculate_inventory_policies_witness :
    (7 : ℚ) ≤ 8 ∧ (8 : ℚ) ≤ 10 ∧
    calculate_inventory_bucketed (some 8) = 1 :=
  ⟨by norm_num, by norm_num,
    (calculate_inventory_policies 8).2.2.2.2.2.1 (by norm_num) (by norm_num)⟩

/-- C10: in the Price Variance Updater a VarianceReviewRecord is appended
to the in-memory review list exactly when the posted price is present,
positive and differs from the current price by at least the threshold 50;
the append happens at decision time, so the review list after the row does
not depend on whether the subsequent combined apply call succeeds, and in
the flagged case an apply call is indeed issued. -/
theorem variance_review_appended_regardless_of_apply
    (rl : List VarianceReviewRecord) (store sku : String) (cInv tInv : ℤ)
    (rp p : ℚ) (succ : Bool) :
    PRICE_VARIANCE_THRESHOLD = 50 ∧
    (0 < p → 50 ≤ |p - rp| →
      (process_variance_row rl store sku cInv tInv rp (some p) succ).reviewList
        = rl ++ [⟨store, sku, rp, p, |p - rp|,
            if rp < p then "INCREASE" else "DECREASE"⟩] ∧
      (process_variance_row rl store sku cInv tInv rp (some p)
        succ).applyIssued = true) ∧
    (0 < p → |p - rp| < 50 →
      (process_variance_row rl store sku cInv tInv rp (some p)
        succ).reviewList = rl) ∧
    (p ≤ 0 →
      (process_variance_row rl store sku cInv tInv rp (some p)
        succ).reviewList = rl) ∧
    (process_variance_row rl store sku cInv tInv rp none succ).reviewList
      = rl ∧
    (process_variance_row rl store sku cInv tInv rp (some p) succ).reviewList
      = (process_variance_row rl store sku cInv tInv rp (some p)
          true).reviewList := by
  have hthr : PRICE_VARIANCE_THRESHOLD = (50 : ℚ) := rfl
  refine ⟨rfl, ?_, ?_, ?_, ?_, ?_⟩
  · intro hp hd
    simp only [process_variance_row]
    rw [if_pos hp, if_pos (by rw [hthr]; exact hd)]
    exact ⟨applyPhase_reviewList _ _ _ _, applyPhase_applyIssued _ _ _⟩
  · intro hp hd
    simp only [process_variance_row]
    rw [if_pos hp, if_neg (by rw [hthr]; exact not_le.mpr hd)]
    split_ifs <;> exact applyPhase_reviewList _ _ _ _
  · intro hp
    simp only [process_variance_row]
    rw [if_neg (not_lt.mpr hp)]
    exact applyPhase_reviewList _ _ _ _
  · simp only [process_variance_row]
    exact applyPhase_reviewList _ _ _ _
  · simp only [process_variance_row]
    split_ifs <;> simp only [applyPhase_reviewList]

/-- Witness for C10: a flagged row (current 100, posted 160) with a failing
apply call still appends its review record. -/
theorem variance_review_appended_regardless_of_apply_witness :
    (0 : ℚ) < 160 ∧ (50 : ℚ) ≤ |(160 : ℚ) - 100| ∧
    (process_variance_row [] "S" "K" 0 0 100 (some 160) false).reviewList
      = [] ++ [⟨"S", "K", 100, 160, |(160 : ℚ) - 100|,
          if (100 : ℚ) < 160 then "INCREASE" else "DECREASE"⟩] := by
  have habs : |(160 : ℚ) - 100| = 60 := by
    rw [abs_of_nonneg] <;> norm_num
  exact ⟨by norm_num, by rw [habs]; norm_num,
    ((variance_review_appended_regardless_of_apply [] "S" "K" 0 0 100 160
      false).2.1 (by norm_num) (by rw [habs]; norm_num)).1⟩

/-- C1: for every SKU string PREFIX-CODE-SUFFIX with a nonempty letter
prefix and an accepted suffix, a 10-character alphanumeric CODE with at
least one letter extracts successfully to its last five characters followed
by its first five, and a 12-digit CODE to its last six digits followed by
its first six (halves swapped as blocks); with the spec's concrete
examples. -/
theorem extract_asin_from_sku_wellformed (preL code suf : List Char)
    (hpre : preL ≠ []) (hpreA : ∀ c ∈ preL, pyIsAlpha c = true)
    (hsuf : suf ∈ acceptedSuffixes) :
    (code.length = 10 → code.all pyIsAlnum = true →
      code.any pyIsAlpha = true →
      extract_asin_from_sku (String.mk (preL ++ '-' :: (code ++ '-' :: suf)))
        = (String.mk (code.drop 5 ++ code.take 5), true)) ∧
    (code.length = 12 → code.all pyIsDigit = true →
      extract_asin_from_sku (String.mk (preL ++ '-' :: (code ++ '-' :: suf)))
        = (String.mk (code.drop 6 ++ code.take 6), true)) ∧
    extract_asin_from_sku "MZM-4KTCXB0CYZ-New" = ("B0CYZ4KTCX", true) ∧
    extract_asin_from_sku "MZM-853596316522-New" = ("316522853596", true) := by
  refine ⟨?_, ?_, by decide, by decide⟩
  · intro hlen hall hany
    exact extract_amazon_ok preL code suf hpre hpreA hsuf hlen hall hany
  · intro hlen hall
    exact extract_ebay_ok preL code suf hpre hpreA hsuf hlen hall

/-- Witness for C1: the amazon branch at MZM-4KTCXB0CYZ-New. -/
theorem extract_asin_from_sku_wellformed_witness :
    extract_asin_from_sku
      (String.mk ("MZM".data ++ '-' :: ("4KTCXB0CYZ".data ++ '-' :: "New".data)))
      = (String.mk ("4KTCXB0CYZ".data.drop 5 ++ "4KTCXB0CYZ".data.take 5),
        true) :=
  (extract_asin_from_sku_wellformed "MZM".data "4KTCXB0CYZ".data "New".data
    (by decide) (by decide) (by decide)).1 (by decide) (by decide) (by decide)

/-- Counterexample for C5: the suffix is not fully case-insensitive: the
casings NEW and nEw of New are rejected by the code, on SKUs of both
shapes. -/
theorem extract_suffix_uppercase_rejected_cex :
    extract_asin_from_sku "MZM-4KTCXB0CYZ-NEW" = ("", false) ∧
    extract_asin_from_sku "MZM-4KTCXB0CYZ-nEw" = ("", false) ∧
    extract_asin_from_sku "MZM-853596316522-NEW" = ("", false) := by decide

/-- C5 (amended): only the leading letter of the suffix is
case-insensitive: for every casing of New or N, on a well-formed SKU of
EITHER shape (10-character alphanumeric code with a letter, or 12-digit
code), extraction succeeds exactly when the suffix is one of New, new, N,
n, so every other casing (e.g. NEW, nEw) is rejected on both shapes. -/
theorem extract_suffix_casing (preL code suf : List Char)
    (hpre : preL ≠ []) (hpreA : ∀ c ∈ preL, pyIsAlpha c = true)
    (hspec : suf ∈ specSuffixes) :
    (code.length = 10 → code.all pyIsAlnum = true →
      code.any pyIsAlpha = true →
      (extract_asin_from_sku
        (String.mk (preL ++ '-' :: (code ++ '-' :: suf)))).2
        = acceptedSuffixes.contains suf) ∧
    (code.length = 12 → code.all pyIsDigit = true →
      (extract_asin_from_sku
        (String.mk (preL ++ '-' :: (code ++ '-' :: suf)))).2
        = acceptedSuffixes.contains suf) ∧
    extract_asin_from_sku "MZM-4KTCXB0CYZ-NEW" = ("", false) ∧
    extract_asin_from_sku "MZM-853596316522-NEW" = ("", false) ∧
    extract_asin_from_sku "MZM-4KTCXB0CYZ-new" = ("B0CYZ4KTCX", true) ∧
    extract_asin_from_sku "MZM-853596316522-n" = ("316522853596", true) := by
  have hsufA := suffix_chars_alpha suf hspec
  have hmem : acceptedSuffixes.contains suf = true → suf ∈ acceptedSuffixes := by
    intro hc
    simp only [specSuffixes, List.mem_cons, List.not_mem_nil, or_false]
      at hspec
    rcases hspec with rfl | rfl | rfl | rfl | rfl | rfl | rfl | rfl | rfl | rfl
      <;> first
        | decide
        | exact absurd hc (by decide)
  refine ⟨?_, ?_, by decide, by decide, by decide, by decide⟩
  · intro hlen hall hany
    cases hc : acceptedSuffixes.contains suf with
    | true =>
        rw [extract_amazon_ok preL code suf hpre hpreA (hmem hc) hlen hall
          hany]
    | false =>
        rw [extract_bad_suffix preL code suf hpre hpreA hsufA hlen hall hc]
  · intro hlen hall
    cases hc : acceptedSuffixes.contains suf with
    | true =>
        rw [extract_ebay_ok preL code suf hpre hpreA (hmem hc) hlen hall]
    | false =>
        rw [extract_bad_suffix12 preL code suf hpre hpreA hsufA hlen hall hc]

/-- Witness for C5: the accepted lowercase suffix new on a 10-character
SKU and the rejected suffix NEW on a 12-digit SKU. -/
theorem extract_suffix_casing_witness :
    "new".data ∈ specSuffixes ∧ "NEW".data ∈ specSuffixes ∧
    (extract_asin_from_sku
      (String.mk ("MZM".data ++ '-' :: ("4KTCXB0CYZ".data ++ '-' ::
        "new".data)))).2 = acceptedSuffixes.contains "new".data ∧
    (extract_asin_from_sku
      (String.mk ("MZM".data ++ '-' :: ("853596316522".data ++ '-' ::
        "NEW".data)))).2 = acceptedSuffixes.contains "NEW".data :=
  ⟨by decide, by decide,
    (extract_suffix_casing "MZM".data "4KTCXB0CYZ".data "new".data
      (by decide) (by decide) (by decide)).1 (by decide) (by decide)
      (by decide),
    (extract_suffix_casing "MZM".data "853596316522".data "NEW".data
      (by decide) (by decide) (by decide)).2.1 (by decide) (by decide)⟩

/-- Counterexample for C6: the code strips the SKU before matching, so a
whitespace-padded SKU matches neither of the spec's two anchored shapes yet
extracts successfully instead of failing with the empty identifier. -/
theorem extract_untrimmed_input_cex :
    specShape10 " MZM-4KTCXB0CYZ-New" = false ∧
    specShape12 " MZM-4KTCXB0CYZ-New" = false ∧
    extract_asin_from_sku " MZM-4KTCXB0CYZ-New" = ("B0CYZ4KTCX", true) := by
  decide

/-- C6 (amended): extraction fails hard, with the empty identifier and no
fallback, on every string whose TRIMMED form matches neither pattern, and
on every trimmed match of the 10-character pattern whose code has no letter
(the 12-digit pattern cannot rescue it); including the empty string,
garbage text, and a 10-digit all-numeric code. -/
theorem extract_hard_failure (s : String) (code : List Char) :
    (matchSku 10 pyIsAlnum acceptedSuffixes (stripChars s.data) = none →
     matchSku 12 pyIsDigit acceptedSuffixes (stripChars s.data) = none →
     extract_asin_from_sku s = ("", false)) ∧
    (matchSku 10 pyIsAlnum acceptedSuffixes (stripChars s.data) = some code →
     code.any pyIsAlpha = false →
     matchSku 12 pyIsDigit acceptedSuffixes (stripChars s.data) = none →
     extract_asin_from_sku s = ("", false)) ∧
    extract_asin_from_sku "" = ("", false) ∧
    extract_asin_from_sku "garbage" = ("", false) ∧
    extract_asin_from_sku "MZM-1234567890-New" = ("", false) := by
  refine ⟨?_, ?_, by decide, by decide, by decide⟩
  · intro h10 h12
    simp only [extract_asin_from_sku]
    rw [h10]
    simp only [Option.elim_none, ebayBranch]
    rw [h12]
    rfl
  · intro h10 hA h12
    simp only [extract_asin_from_sku]
    rw [h10]
    simp only [Option.elim_some]
    rw [if_neg (by rw [hA]; exact Bool.false_ne_true)]
    simp only [ebayBranch]
    rw [h12]
    rfl

/-- Witness for C6: the hard-failure branch at the garbage input. -/
theorem extract_hard_failure_witness :
    matchSku 10 pyIsAlnum acceptedSuffixes (stripChars "garbage".data)
      = none ∧
    matchSku 12 pyIsDigit acceptedSuffixes (stripChars "garbage".data)
      = none ∧
    extract_asin_from_sku "garbage" = ("", false) :=
  ⟨by decide, by decide,
    (extract_hard_failure "garbage" []).1 (by decide) (by decide)⟩

/-- C7: every successful extraction yields an identifier of length 10 with
at least one letter or of length 12 made of digits, and that identifier is
classified valid by is_valid_asin. -/
theorem extract_output_valid (s a : String)
    (h : extract_asin_from_sku s = (a, true)) :
    ((a.length = 10 ∧ a.data.any pyIsAlpha = true) ∨
     (a.length = 12 ∧ a.data.all pyIsDigit = true)) ∧
    (is_valid_asin a).1 = true := by
  unfold extract_asin_from_sku at h
  cases hm : matchSku 10 pyIsAlnum acceptedSuffixes (stripChars s.data) with
  | none =>
      rw [hm] at h
      simp only [Option.elim_none] at h
      obtain ⟨h12, hall, hv⟩ := ebayBranch_ok _ _ h
      exact ⟨Or.inr ⟨h12, hall⟩, hv⟩
  | some code =>
      rw [hm] at h
      simp only [Option.elim_some] at h
      obtain ⟨hlen, hallAl⟩ := matchSku_sound 10 pyIsAlnum acceptedSuffixes
        _ code hm
      cases hA : code.any pyIsAlpha with
      | false =>
          rw [hA] at h
          simp only [Bool.false_eq_true, if_false] at h
          obtain ⟨h12, hall, hv⟩ := ebayBranch_ok _ _ h
          exact ⟨Or.inr ⟨h12, hall⟩, hv⟩
      | true =>
          rw [hA] at h
          simp only [if_true] at h
          rw [Prod.ext_iff] at h
          obtain ⟨h1, -⟩ := h
          subst h1
          have halnum : ∀ c ∈ code.drop 5 ++ code.take 5,
              pyIsAlnum c = true := by
            intro c hc
            rcases List.mem_append.mp hc with h' | h'
            · exact List.all_eq_true.mp hallAl c (List.drop_subset 5 code h')
            · exact List.all_eq_true.mp hallAl c (List.take_subset 5 code h')
          have hlen' : (code.drop 5 ++ code.take 5).length = 10 := by
            rw [List.length_append, List.length_drop, List.length_take, hlen]
            omega
          have hany' : (code.drop 5 ++ code.take 5).any pyIsAlpha = true := by
            obtain ⟨c, hcmem, hc⟩ := List.any_eq_true.mp hA
            refine List.any_eq_true.mpr ⟨c, ?_, hc⟩
            rcases List.mem_append.mp
              ((List.take_append_drop 5 code).symm ▸ hcmem) with h' | h'
            · exact List.mem_append.mpr (Or.inr h')
            · exact List.mem_append.mpr (Or.inl h')
          exact ⟨Or.inl ⟨hlen', hany'⟩,
            valid_of_len10_alpha _ hlen' halnum hany'⟩

/-- Witness for C7: the round trip at MZM-4KTCXB0CYZ-New. -/
theorem extract_output_valid_witness :
    extract_asin_from_sku "MZM-4KTCXB0CYZ-New" = ("B0CYZ4KTCX", true) ∧
    ((("B0CYZ4KTCX" : String).length = 10 ∧
        "B0CYZ4KTCX".data.any pyIsAlpha = true) ∨
     (("B0CYZ4KTCX" : String).length = 12 ∧
        "B0CYZ4KTCX".data.all pyIsDigit = true)) ∧
    (is_valid_asin "B0CYZ4KTCX").1 = true :=
  ⟨by decide,
    (extract_output_valid "MZM-4KTCXB0CYZ-New" "B0CYZ4KTCX" (by decide)).1,
    (extract_output_valid "MZM-4KTCXB0CYZ-New" "B0CYZ4KTCX" (by decide)).2⟩

/-- Counterexample for C8: generate_link trims the identifier first, so a
10-character identifier with a trailing space (which the claim says gets an
amazon link) yields the empty string. -/
theorem generate_link_untrimmed_cex :
    ("AAAAAAAAA " : String).length = 10 ∧
    "AAAAAAAAA ".data.any pyIsAlpha = true ∧
    generate_link "AAAAAAAAA " = "" ∧
    generate_link "AAAAAAAAA " ≠ "https://www.amazon.com/dp/" ++
      "AAAAAAAAA " := by decide

/-- C8 (amended): the identifier is trimmed first; a trimmed form of length
10 with a letter yields the amazon link of the trimmed form, a trimmed
12-digit form the ebay link of the trimmed form, and everything else the
empty string. -/
theorem generate_link_classification (s : String)
    (hA : asciiString s = true) :
    ((stripChars s.data).length = 10 →
      (stripChars s.data).any pyIsAlpha = true →
      generate_link s = "https://www.amazon.com/dp/" ++
        String.mk (stripChars s.data)) ∧
    ((stripChars s.data).length = 12 →
      (stripChars s.data).all pyIsDigit = true →
      generate_link s = "https://www.ebay.com/itm/" ++
        String.mk (stripChars s.data)) ∧
    (¬((stripChars s.data).length = 10 ∧
        (stripChars s.data).any pyIsAlpha = true) →
     ¬((stripChars s.data).length = 12 ∧
        pyIsDigitStr (stripChars s.data) = true) →
      generate_link s = "") := by
  refine ⟨?_, ?_, ?_⟩
  · intro hlen hany
    by_cases hs : s = ""
    · subst hs
      exact absurd hlen (by decide)
    · simp only [generate_link]
      rw [if_neg hs, if_pos (by simp [hlen, hany])]
  · intro hlen hall
    by_cases hs : s = ""
    · subst hs
      exact absurd hlen (by decide)
    · have hne : stripChars s.data ≠ [] := by
        intro h
        rw [h] at hlen
        simp at hlen
      simp only [generate_link]
      rw [if_neg hs, if_neg (by simp [hlen]),
        if_pos (by simp [hlen, pyIsDigitStr_of _ hne hall])]
  · intro h1 h2
    by_cases hs : s = ""
    · subst hs
      rfl
    · simp only [generate_link]
      rw [if_neg hs,
        if_neg (fun hc => h1 (by
          rw [Bool.and_eq_true, decide_eq_true_eq] at hc
          exact hc)),
        if_neg (fun hc => h2 (by
          rw [Bool.and_eq_true, decide_eq_true_eq] at hc
          exact hc))]

/-- Witness for C8: the amazon branch at the identifier B0CYZ4KTCX. -/
theorem generate_link_classification_witness :
    asciiString "B0CYZ4KTCX" = true ∧
    (stripChars "B0CYZ4KTCX".data).length = 10 ∧
    (stripChars "B0CYZ4KTCX".data).any pyIsAlpha = true ∧
    generate_link "B0CYZ4KTCX" = "https://www.amazon.com/dp/" ++
      String.mk (stripChars "B0CYZ4KTCX".data) :=
  ⟨by decide, by decide, by decide,
    (generate_link_classification "B0CYZ4KTCX" (by decide)).1 (by decide)
      (by decide)⟩

/-- Counterexample for C9: find_price_column is case-SENSITIVE: column
names matching a keyword only case-insensitively (Unit CoSt, PrIcE) are not
selected, though the spec's case-insensitive match accepts them. -/
theorem find_price_column_case_sensitive_cex :
    spec_price_keyword_match "Unit CoSt" = true ∧
    find_price_column ["Unit CoSt"] = none ∧
    spec_price_keyword_match "PrIcE" = true ∧
    find_price_column ["PrIcE"] = none := by decide

/-- C9 (amended): find_price_column selects the first column containing
one of the three exact casings (lower, Capitalized, UPPER) of price, cost,
amount, value as a case-sensitive substring and selects nothing otherwise;
the separate POSTED PRICE search does match case-insensitively (trimmed,
upper-cased) against its posted-price/price keywords. -/
theorem price_column_matching (cols : List String) (col : String) :
    find_price_column ["Unit Cost"] = some "Unit Cost" ∧
    find_posted_price_column ["pOsTeD pRiCe"] = some "pOsTeD pRiCe" ∧
    ((∀ c ∈ cols,
        (priceKeywords.any fun k => containsSub k.data c.data) = false) →
      find_price_column cols = none) ∧
    (col ∈ cols →
      (priceKeywords.any fun k => containsSub k.data col.data) = true →
      (find_price_column cols).isSome = true) ∧
    ((∀ c ∈ cols, (postedPriceKeywords.any fun k =>
        containsSub (pyUpper k.data) (pyUpper (stripChars c.data))) = false) →
      find_posted_price_column cols = none) ∧
    (col ∈ cols → (postedPriceKeywords.any fun k =>
        containsSub (pyUpper k.data) (pyUpper (stripChars col.data))) = true →
      (find_posted_price_column cols).isSome = true) := by
  refine ⟨by decide, by decide, ?_, ?_, ?_, ?_⟩
  · intro h
    exact List.find?_eq_none.mpr fun x hx => by simp [h x hx]
  · intro hmem hmatch
    simp only [find_price_column]
    rw [List.find?_isSome]
    exact ⟨col, hmem, by simp [hmatch]⟩
  · intro h
    exact List.find?_eq_none.mpr fun x hx => by simp [h x hx]
  · intro hmem hmatch
    simp only [find_posted_price_column]
    rw [List.find?_isSome]
    exact ⟨col, hmem, by simp [hmatch]⟩

/-- Witness for C9: no keyword occurs in the single column SKU, so no
price column is selected. -/
theorem price_column_matching_witness :
    (∀ c ∈ (["SKU"] : List String),
      (priceKeywords.any fun k => containsSub k.data c.data) = false) ∧
    find_price_column ["SKU"] = none :=
  ⟨by decide, (price_column_matching ["SKU"] "SKU").2.2.1 (by decide)⟩

end ReverbInv
